import Mathlib

/-!
Shallow embedding of the upload-and-listing core of the
`web3-storage/example-image-gallery` repository.

The repository is a browser app; its logical core (gateway URL building,
metadata sidecar encoding/decoding, upload orchestration and the gallery
listing reconciler) is embedded here as pure Lean functions.  The source
tree contains several tutorial-step variants of the same functions:

* `part_000` (lines 1-453): token read from local storage via
  `storageClient()`, which returns `null` when the token is absent; the
  callers do not check for `null`, so `storeImage` / `getGalleryListing`
  hit a JavaScript `TypeError` in that case.  Its `makeGatewayURL` does
  not percent-encode the path.
* `part_003` (first variant, lines 1-515) and `part_004` (second
  variant): `storeImage` and `listImageMetadata` check the token first;
  `storeImage` shows a message and returns, `listImageMetadata` yields
  nothing.  `part_004`'s `makeGatewayURL` percent-encodes the path with
  `encodeURIComponent`; the `part_000`/`part_003` builders do not.

JavaScript platform builtins used by the code (`JSON.stringify`,
`JSON.parse` restricted to the sidecar shape, `encodeURIComponent`,
`Array.prototype.join`, `String.prototype.startsWith`) are modelled
from their ECMAScript semantics.  Backend effects (`web3storage.put`,
`web3storage.list`, `fetch`) are abstracted as explicit function
arguments; DOM output (`showMessage` / `showLink`) is recorded as a list
of strings.
-/

namespace ImageGallery

/-- The fixed upload-name marker (`part_000` line 12, `part_003` line 20):
`const namePrefix = 'ImageGallery'`. -/
def namePrefix : String := "ImageGallery"

/-- `Array.prototype.join('|')` as used in `[namePrefix, caption].join('|')`
(`part_000` line 39): elements concatenated with a `|` separator. -/
def joinPipe : List String → String
  | [] => ""
  | [s] => s
  | s :: rest => s ++ "|" ++ joinPipe rest

/-- The upload name composed by `storeImage`
(`part_000` line 39): `[namePrefix, caption].join('|')`. -/
def uploadName (caption : String) : String :=
  joinPipe [namePrefix, caption]

/-! ### JSON.stringify / JSON.parse for the metadata sidecar

`jsonFile('metadata.json', {path, caption})` serialises the sidecar with
`JSON.stringify` (`part_000` lines 412-414); `getImageMetadata` reads it
back with `res.json()`, i.e. `JSON.parse`.  We model the ECMAScript
string-escaping rules exactly: `"` and `\` get a backslash escape, the
named control escapes `\b \f \n \r \t` are used where they exist, all
other control characters are emitted as `\u00` plus two lowercase hex
digits, and every other character is emitted verbatim.  The parser
accepts the JSON string-literal grammar (named escapes, `\uXXXX` for
non-surrogate code points, plain characters) specialised to the
two-field object shape `JSON.stringify` produces for the sidecar. -/

/-- Lowercase hex digit, as produced by `JSON.stringify` in `\u00xx` escapes. -/
def hexLower (k : Nat) : Char :=
  if k < 10 then Char.ofNat (48 + k) else Char.ofNat (87 + k)

/-- `JSON.stringify` escape expansion of one character. -/
def escChar (ch : Char) : List Char :=
  if ch = '"' then ['\\', '"']
  else if ch = '\\' then ['\\', '\\']
  else if ch = '\x08' then ['\\', 'b']
  else if ch = '\x0c' then ['\\', 'f']
  else if ch = '\n' then ['\\', 'n']
  else if ch = '\r' then ['\\', 'r']
  else if ch = '\t' then ['\\', 't']
  else if ch.toNat < 32 then
    ['\\', 'u', '0', '0', hexLower (ch.toNat / 16), hexLower (ch.toNat % 16)]
  else [ch]

/-- `JSON.stringify` escaping of a whole character sequence. -/
def escapeList : List Char → List Char
  | [] => []
  | c :: cs => escChar c ++ escapeList cs

/-- A `JSON.stringify`-produced string literal, quotes included. -/
def jsonQuote (s : String) : String :=
  "\"" ++ String.mk (escapeList s.data) ++ "\""

/-- `JSON.stringify({path: p, caption: c})`: the sidecar file content
written by `jsonFile` (`part_000` lines 44-47, 412-414). -/
def stringifySidecar (p c : String) : String :=
  "\x7b" ++ jsonQuote "path" ++ ":" ++ jsonQuote p ++ ","
    ++ jsonQuote "caption" ++ ":" ++ jsonQuote c ++ "\x7d"

/-- A file handed to the storage client: a name plus its (textual) content.
`new File([JSON.stringify(obj)], filename)` becomes `jsonFile`. -/
structure FileRep where
  name : String
  content : String
deriving DecidableEq, Repr

/-- `jsonFile(filename, {path, caption})` (`part_000` lines 412-414):
wraps the `JSON.stringify` output in a file object. -/
def jsonFile (filename : String) (path caption : String) : FileRep :=
  ⟨filename, stringifySidecar path caption⟩

/-- Value of one hex digit, per the JSON `\uXXXX` escape grammar. -/
def hexVal (ch : Char) : Option Nat :=
  if '0' ≤ ch ∧ ch ≤ '9' then some (ch.toNat - 48)
  else if 'a' ≤ ch ∧ ch ≤ 'f' then some (ch.toNat - 87)
  else if 'A' ≤ ch ∧ ch ≤ 'F' then some (ch.toNat - 55)
  else none

/-- The single-character JSON escapes accepted by `JSON.parse`. -/
def unescape (e : Char) : Option Char :=
  if e = '"' then some '"'
  else if e = '\\' then some '\\'
  else if e = '/' then some '/'
  else if e = 'b' then some '\x08'
  else if e = 'f' then some '\x0c'
  else if e = 'n' then some '\n'
  else if e = 'r' then some '\r'
  else if e = 't' then some '\t'
  else none

/-- JSON string-literal body parser (the part after the opening quote):
returns the decoded characters and the input remaining after the closing
quote.  Surrogate `\uXXXX` escapes are rejected rather than paired; the
encoder side never produces them for Unicode scalar strings. -/
def parseStrBody : List Char → Option (List Char × List Char)
  | [] => none
  | c :: cs =>
    if c = '"' then some ([], cs)
    else if c = '\\' then
      match cs with
      | [] => none
      | e :: cs2 =>
        if e = 'u' then
          match cs2 with
          | h1 :: h2 :: h3 :: h4 :: cs3 =>
            match hexVal h1, hexVal h2, hexVal h3, hexVal h4 with
            | some a, some b, some c2, some d =>
              let n := ((a * 16 + b) * 16 + c2) * 16 + d
              if n < 55296 ∨ 57344 ≤ n then
                (parseStrBody cs3).map (fun r => (Char.ofNat n :: r.1, r.2))
              else none
            | _, _, _, _ => none
          | _ => none
        else
          match unescape e with
          | some ch => (parseStrBody cs2).map (fun r => (ch :: r.1, r.2))
          | none => none
    else (parseStrBody cs).map (fun r => (c :: r.1, r.2))

/-- Consume an expected literal character sequence from the front of the
input, returning the remainder (or `none` on mismatch). -/
def dropLit : List Char → List Char → Option (List Char)
  | [], rest => some rest
  | _ :: _, [] => none
  | p :: ps, c :: cs => if c = p then dropLit ps cs else none

/-- `JSON.parse` specialised to the exact object shape produced by
`stringifySidecar`: `{"path":<string>,"caption":<string>}`.  Returns the
decoded `path` and `caption` fields. -/
def parseSidecar (s : String) : Option (String × String) :=
  match dropLit ("\x7b\"path\":\"").data s.data with
  | none => none
  | some r1 =>
    match parseStrBody r1 with
    | none => none
    | some (p, r2) =>
      match dropLit (",\"caption\":\"").data r2 with
      | none => none
      | some r3 =>
        match parseStrBody r3 with
        | none => none
        | some (c, r4) =>
          if r4 = ['\x7d'] then some (String.mk p, String.mk c) else none

/-! ### Gateway URL builders -/

/-- Uppercase hex digit, as produced by `encodeURIComponent`. -/
def hexUpper (k : Nat) : Char :=
  if k < 10 then Char.ofNat (48 + k) else Char.ofNat (55 + k)

/-- Characters `encodeURIComponent` leaves unescaped:
`A-Z a-z 0-9 - _ . ! ~ * ' ( )`. -/
def uriUnreserved (ch : Char) : Bool :=
  ('A' ≤ ch && ch ≤ 'Z') || ('a' ≤ ch && ch ≤ 'z') || ('0' ≤ ch && ch ≤ '9')
    || ch = '-' || ch = '_' || ch = '.' || ch = '!' || ch = '~' || ch = '*'
    || ch = Char.ofNat 39 || ch = '(' || ch = ')'

/-- UTF-8 byte sequence of a Unicode scalar value. -/
def utf8Bytes (n : Nat) : List Nat :=
  if n < 128 then [n]
  else if n < 2048 then [192 + n / 64, 128 + n % 64]
  else if n < 65536 then [224 + n / 4096, 128 + (n / 64) % 64, 128 + n % 64]
  else [240 + n / 262144, 128 + (n / 4096) % 64, 128 + (n / 64) % 64, 128 + n % 64]

/-- A percent-escaped byte: `%` plus two uppercase hex digits. -/
def pctByte (b : Nat) : List Char :=
  ['%', hexUpper (b / 16), hexUpper (b % 16)]

/-- `encodeURIComponent` expansion of one character. -/
def encChar (ch : Char) : List Char :=
  if uriUnreserved ch then [ch]
  else (utf8Bytes ch.toNat).foldr (fun b acc => pctByte b ++ acc) []

/-- The ECMAScript `encodeURIComponent` builtin (for strings of Unicode
scalar values: Lean `String`s contain no lone surrogates). -/
def encodeURIComponent (s : String) : String :=
  String.mk (s.data.foldr (fun ch acc => encChar ch ++ acc) [])

/-- Gateway URL builder of `part_000` (lines 408-410) and `part_003`
(line 469): the path is interpolated verbatim, with no percent-encoding. -/
def makeGatewayURL (cid path : String) : String :=
  "https://" ++ cid ++ ".ipfs.dweb.link/" ++ path

/-- Gateway URL builder of `part_004` (lines 705-707): the path goes
through `encodeURIComponent`. -/
def makeGatewayURLEnc (cid path : String) : String :=
  "https://" ++ cid ++ ".ipfs.dweb.link/" ++ encodeURIComponent path

/-! ### Data model for store and listing -/

/-- Outcome of a JavaScript computation: either a normal value or a
thrown error (carrying its message). -/
inductive JsResult (α : Type) where
  | thrown (msg : String)
  | value (v : α)
deriving DecidableEq, Repr

/-- The normal value of a `JsResult`, when there is one. -/
def JsResult.toOption : JsResult α → Option α
  | .thrown _ => none
  | .value v => some v

/-- One entry of the backend's `list()` response: a root CID plus the
upload's declared name (`undefined`/absent modelled as `none`). -/
structure Upload where
  cid : String
  name : Option String
deriving DecidableEq, Repr

/-- A JavaScript object with string-valued fields, as an insertion-order
association list (later entries added by object-literal assignment win). -/
abbrev JsObj := List (String × String)

/-- JavaScript property lookup on a `JsObj`: the last binding of the key
wins, `undefined` (here `none`) if the key is absent. -/
def jsGet (o : JsObj) (k : String) : Option String :=
  o.foldl (fun acc p => if p.1 = k then some p.2 else acc) none

/-- Outcome of `fetch(url)` followed by `res.json()` for a sidecar URL:
a non-success HTTP status, a JSON parse failure, or the parsed object. -/
inductive FetchOutcome where
  | httpError (status : Nat) (statusText : String)
  | parseError (msg : String)
  | ok (body : JsObj)
deriving DecidableEq, Repr

/-- `getImageMetadata(cid)` (`part_000` lines 111-121, `part_003` lines
119-129): fetch the sidecar from the gateway; throw on a non-ok response
or a parse failure; otherwise return `{...metadata, cid, gatewayURL, uri}`,
the three derived fields being assigned after the spread of the fetched
object.  A missing `path` field interpolates as the string
`"undefined"`, as a JavaScript template literal would. -/
def getImageMetadata (fetch : String → FetchOutcome) (cid : String) :
    JsResult JsObj :=
  match fetch (makeGatewayURL cid "metadata.json") with
  | .httpError status statusText =>
    .thrown ("error fetching image metadata: [" ++ toString status ++ "] "
      ++ statusText)
  | .parseError msg => .thrown msg
  | .ok m =>
    let path := (jsGet m "path").getD "undefined"
    .value (m ++ [("cid", cid), ("gatewayURL", makeGatewayURL cid path),
      ("uri", "ipfs://" ++ cid ++ "/" ++ path)])

/-- `String.prototype.startsWith`: prefix test on the character data. -/
def jsStartsWith (s p : String) : Bool :=
  p.data.isPrefixOf s.data

/-- The listing filter (`part_000` lines 82-84, `part_003` lines 92-94):
`if (!upload.name || !upload.name.startsWith(namePrefix)) continue`.
An upload is kept when its name is truthy (present and non-empty) and
starts with the fixed marker. -/
def keepUpload : Option String → Bool
  | none => false
  | some n => (!(n == "")) && jsStartsWith n namePrefix

/-- The shared per-upload loop of `getGalleryListing` / `listImageMetadata`:
skip uploads failing the name filter; for the rest fetch the sidecar
metadata, skipping (and only logging) any upload whose fetch throws. -/
def processUploads (fetch : String → FetchOutcome) : List Upload → List JsObj
  | [] => []
  | u :: rest =>
    if keepUpload u.name then
      match getImageMetadata fetch u.cid with
      | .value m => m :: processUploads fetch rest
      | .thrown _ => processUploads fetch rest
    else processUploads fetch rest

/-- `getGalleryListing()` of `part_000` (lines 78-96): `storageClient()`
yields `null` when no token is saved, and the unguarded
`web3storage.list()` call then throws a `TypeError`; with a token the
upload loop runs. -/
def getGalleryListing (token : Option String) (fetch : String → FetchOutcome)
    (uploads : List Upload) : JsResult (List JsObj) :=
  match token with
  | none => .thrown "TypeError: Cannot read properties of null (reading list)"
  | some _ => .value (processUploads fetch uploads)

/-- `listImageMetadata()` of `part_003` (lines 83-104) / `part_004`: when
no token is saved the generator logs to the console and yields nothing;
otherwise it yields the upload loop's results. -/
def listImageMetadata (token : Option String) (fetch : String → FetchOutcome)
    (uploads : List Upload) : List JsObj :=
  match token with
  | none => []
  | some _ => processUploads fetch uploads

/-- One `web3storage.put` invocation: the files of the bundle and the
upload name passed in the options. -/
structure PutCall where
  files : List FileRep
  name : String
deriving DecidableEq, Repr

/-- The object returned by `storeImage`
(`part_000` line 69: `{ cid, metadataGatewayURL, imageGatewayURL,
imageURI, metadataURI }`). -/
structure StoreImageResult where
  cid : String
  metadataGatewayURL : String
  imageGatewayURL : String
  imageURI : String
  metadataURI : String
deriving DecidableEq, Repr

/-- Everything observable about one `storeImage` call: the messages and
links written to the output area, the `put` calls made, and the result —
a thrown error, `undefined` (the bare `return`), or the links object.
Messages produced by the backend-invoked `onRootCidReady` /
`onStoredChunk` callbacks are outside the model. -/
structure StoreOutcome where
  messages : List String
  puts : List PutCall
  result : JsResult (Option StoreImageResult)
deriving DecidableEq, Repr

/-- The page location, used for the settings link in the no-token path. -/
structure Location where
  protocol : String
  host : String
deriving DecidableEq, Repr

/-- `storeImage(imageFile, caption)` of `part_000` (lines 37-70): builds
the upload name and the sidecar file, then calls `put` on the client
returned by `storageClient()`.  With no saved token `storageClient()`
returns `null` and the unguarded `web3storage.put` throws a `TypeError`
(after the "calculating content ID" message was already shown).  The
backend is abstracted as `put`, a function from the call to the CID. -/
def storeImage (token : Option String) (put : PutCall → String)
    (imageFile : FileRep) (caption : String) : StoreOutcome :=
  let metadataFile := jsonFile "metadata.json" imageFile.name caption
  let calcMsg := "> 🤖 calculating content ID for " ++ imageFile.name
  match token with
  | none =>
    ⟨[calcMsg], [],
      .thrown "TypeError: Cannot read properties of null (reading put)"⟩
  | some _ =>
    let call : PutCall := ⟨[imageFile, metadataFile], uploadName caption⟩
    let cid := put call
    ⟨[calcMsg], [call],
      .value (some ⟨cid, makeGatewayURL cid "metadata.json",
        makeGatewayURL cid imageFile.name,
        "ipfs://" ++ cid ++ "/" ++ imageFile.name,
        "ipfs://" ++ cid ++ "/metadata.json"⟩)⟩

/-- `storeImage(imageFile, caption)` of `part_004` (lines 206-245, same
token handling in `part_003` lines 36-76): when no token is saved it
shows a message plus a settings-page link and returns `undefined`; with
a token it uploads and derives the four links, building gateway URLs
with the `encodeURIComponent` variant of the builder. -/
def storeImageChecked (loc : Location) (token : Option String)
    (put : PutCall → String) (imageFile : FileRep) (caption : String) :
    StoreOutcome :=
  let metadataFile := jsonFile "metadata.json" imageFile.name caption
  match token with
  | none =>
    ⟨["> ❗️ no API token found for Web3.Storage. You can add one in the settings page!",
      loc.protocol ++ "//" ++ loc.host ++ "/settings.html"], [], .value none⟩
  | some _ =>
    let call : PutCall := ⟨[imageFile, metadataFile], uploadName caption⟩
    let cid := put call
    ⟨["> 🤖 calculating content ID for " ++ imageFile.name], [call],
      .value (some ⟨cid, makeGatewayURLEnc cid "metadata.json",
        makeGatewayURLEnc cid imageFile.name,
        "ipfs://" ++ cid ++ "/" ++ imageFile.name,
        "ipfs://" ++ cid ++ "/metadata.json"⟩)⟩

/-- Strip an expected prefix from a URL and return the remaining path
component (used to state the link-shape properties). -/
def urlSuffix (pre url : String) : Option String :=
  (dropLit pre.data url.data).map String.mk

/-! ### Helper lemmas -/

theorem dropLit_append (lit rest : List Char) :
    dropLit lit (lit ++ rest) = some rest := by
  induction lit with
  | nil => rfl
  | cons p ps ih => simp [dropLit, ih]

theorem urlSuffix_append (pre suf : String) :
    urlSuffix pre (pre ++ suf) = some suf := by
  show (dropLit pre.data (pre.data ++ suf.data)).map String.mk = some suf
  rw [dropLit_append]
  rfl

theorem isPrefixOf_self_append (l t : List Char) :
    l.isPrefixOf (l ++ t) = true := by
  induction l with
  | nil => simp [List.isPrefixOf]
  | cons a as ih => simp [List.isPrefixOf, ih]

theorem jsStartsWith_append (p t : String) :
    jsStartsWith (p ++ t) p = true := by
  show p.data.isPrefixOf (p.data ++ t.data) = true
  exact isPrefixOf_self_append _ _

theorem append_ne_empty (t : String) : "ImageGallery" ++ t ≠ "" := by
  intro h
  have h2 : ("ImageGallery" ++ t).data = ("" : String).data := congrArg String.data h
  rw [String.data_append] at h2
  have h3 := (List.append_eq_nil.mp h2).1
  exact absurd h3 (by decide)

theorem hexVal_hexLower : ∀ k < 16, hexVal (hexLower k) = some k := by decide

theorem parseStrBody_escape (cs rest : List Char) :
    parseStrBody (escapeList cs ++ ('"' :: rest)) = some (cs, rest) := by
  induction cs with
  | nil =>
    rw [escapeList, List.nil_append, parseStrBody.eq_def]
    simp +decide only [reduceIte]
  | cons c cs ih =>
    rw [escapeList, List.append_assoc]
    by_cases h1 : c = '"'
    · subst h1
      rw [show escChar '"' = ['\\', '"'] from by decide]
      rw [List.cons_append, List.cons_append, List.nil_append, parseStrBody.eq_def]
      simp +decide only [reduceIte, unescape]
      rw [ih]
      rfl
    by_cases h2 : c = '\\'
    · subst h2
      rw [show escChar '\\' = ['\\', '\\'] from by decide]
      rw [List.cons_append, List.cons_append, List.nil_append, parseStrBody.eq_def]
      simp +decide only [reduceIte, unescape]
      rw [ih]
      rfl
    by_cases h3 : c = '\x08'
    · subst h3
      rw [show escChar '\x08' = ['\\', 'b'] from by decide]
      rw [List.cons_append, List.cons_append, List.nil_append, parseStrBody.eq_def]
      simp +decide only [reduceIte, unescape]
      rw [ih]
      rfl
    by_cases h4 : c = '\x0c'
    · subst h4
      rw [show escChar '\x0c' = ['\\', 'f'] from by decide]
      rw [List.cons_append, List.cons_append, List.nil_append, parseStrBody.eq_def]
      simp +decide only [reduceIte, unescape]
      rw [ih]
      rfl
    by_cases h5 : c = '\n'
    · subst h5
      rw [show escChar '\n' = ['\\', 'n'] from by decide]
      rw [List.cons_append, List.cons_append, List.nil_append, parseStrBody.eq_def]
      simp +decide only [reduceIte, unescape]
      rw [ih]
      rfl
    by_cases h6 : c = '\r'
    · subst h6
      rw [show escChar '\r' = ['\\', 'r'] from by decide]
      rw [List.cons_append, List.cons_append, List.nil_append, parseStrBody.eq_def]
      simp +decide only [reduceIte, unescape]
      rw [ih]
      rfl
    by_cases h7 : c = '\t'
    · subst h7
      rw [show escChar '\t' = ['\\', 't'] from by decide]
      rw [List.cons_append, List.cons_append, List.nil_append, parseStrBody.eq_def]
      simp +decide only [reduceIte, unescape]
      rw [ih]
      rfl
    by_cases h8 : c.toNat < 32
    · rw [show escChar c = ['\\', 'u', '0', '0', hexLower (c.toNat / 16), hexLower (c.toNat % 16)] from by
        rw [escChar, if_neg h1, if_neg h2, if_neg h3, if_neg h4, if_neg h5, if_neg h6, if_neg h7, if_pos h8]]
      simp only [List.cons_append, List.nil_append]
      rw [parseStrBody.eq_def]
      simp +decide only [reduceIte]
      rw [show hexVal '0' = some 0 from by decide,
        hexVal_hexLower _ (by omega : c.toNat / 16 < 16),
        hexVal_hexLower _ (by omega : c.toNat % 16 < 16)]
      simp only [ih, Option.map_some]
      rw [if_pos (Or.inl (by omega))]
      rw [show ((0 * 16 + 0) * 16 + c.toNat / 16) * 16 + c.toNat % 16 = c.toNat from by omega]
      simp [Char.ofNat_toNat]
    · rw [show escChar c = [c] from by
        rw [escChar, if_neg h1, if_neg h2, if_neg h3, if_neg h4, if_neg h5, if_neg h6, if_neg h7, if_neg h8]]
      rw [List.cons_append, List.nil_append, parseStrBody.eq_def]
      simp only [if_neg h1, if_neg h2]
      rw [ih]
      rfl

theorem stringifySidecar_data (p c : String) :
    (stringifySidecar p c).data
      = ("\x7b\"path\":\"").data ++ (escapeList p.data ++ ('"' ::
        ((",\"caption\":\"").data ++ (escapeList c.data ++ ('"' :: ['\x7d']))))) := by
  simp only [stringifySidecar, jsonQuote, String.data_append]
  rw [show escapeList ['p', 'a', 't', 'h'] = ['p', 'a', 't', 'h'] from by decide,
    show escapeList ['c', 'a', 'p', 't', 'i', 'o', 'n'] = ['c', 'a', 'p', 't', 'i', 'o', 'n'] from by decide]
  simp

theorem parseSidecar_stringify (p c : String) :
    parseSidecar (stringifySidecar p c) = some (p, c) := by
  rw [parseSidecar, stringifySidecar_data, dropLit_append]
  simp only [dropLit_append, parseStrBody_escape]
  rfl

theorem processUploads_filter (fetch : String → FetchOutcome) (uploads : List Upload) :
    processUploads fetch uploads
      = processUploads fetch (uploads.filter (fun u => keepUpload u.name)) := by
  induction uploads with
  | nil => rfl
  | cons u rest ih =>
    by_cases h : keepUpload u.name
    · rw [show (u :: rest).filter (fun u => keepUpload u.name)
          = u :: rest.filter (fun u => keepUpload u.name) from by simp [List.filter_cons, h]]
      rw [processUploads, processUploads, if_pos h, if_pos h]
      cases getImageMetadata fetch u.cid with
      | thrown msg => exact ih
      | value m => rw [ih]
    · rw [show (u :: rest).filter (fun u => keepUpload u.name)
          = rest.filter (fun u => keepUpload u.name) from by simp [List.filter_cons, h]]
      rw [processUploads, if_neg h, ih]

theorem processUploads_mem (fetch : String → FetchOutcome) (uploads : List Upload)
    (m : JsObj) (hm : m ∈ processUploads fetch uploads) :
    ∃ u ∈ uploads, keepUpload u.name = true
      ∧ getImageMetadata fetch u.cid = JsResult.value m := by
  induction uploads with
  | nil => exact absurd hm (by simp [processUploads])
  | cons u rest ih =>
    rw [processUploads] at hm
    by_cases h : keepUpload u.name
    · rw [if_pos h] at hm
      cases he : getImageMetadata fetch u.cid with
      | thrown msg =>
        rw [he] at hm
        obtain ⟨v, hv1, hv2⟩ := ih hm
        exact ⟨v, List.mem_cons_of_mem _ hv1, hv2⟩
      | value m2 =>
        rw [he] at hm
        rcases List.mem_cons.mp hm with h2 | h2
        · exact ⟨u, List.mem_cons_self _ _, h, by rw [he, h2]⟩
        · obtain ⟨v, hv1, hv2⟩ := ih h2
          exact ⟨v, List.mem_cons_of_mem _ hv1, hv2⟩
    · rw [if_neg h] at hm
      obtain ⟨v, hv1, hv2⟩ := ih hm
      exact ⟨v, List.mem_cons_of_mem _ hv1, hv2⟩

theorem processUploads_append (fetch : String → FetchOutcome) (l1 l2 : List Upload) :
    processUploads fetch (l1 ++ l2)
      = processUploads fetch l1 ++ processUploads fetch l2 := by
  induction l1 with
  | nil => rfl
  | cons u rest ih =>
    rw [List.cons_append, processUploads, processUploads]
    by_cases h : keepUpload u.name
    · rw [if_pos h, if_pos h]
      cases getImageMetadata fetch u.cid with
      | thrown msg => exact ih
      | value m => rw [ih, List.cons_append]
    · rw [if_neg h, if_neg h, ih]

theorem processUploads_eq_filterMap (fetch : String → FetchOutcome) (l : List Upload)
    (h : ∀ u ∈ l, keepUpload u.name = true) :
    processUploads fetch l
      = l.filterMap (fun u => (getImageMetadata fetch u.cid).toOption) := by
  induction l with
  | nil => rfl
  | cons u rest ih =>
    rw [processUploads, if_pos (h u (List.mem_cons_self _ _)), List.filterMap_cons]
    have ih2 := ih (fun v hv => h v (List.mem_cons_of_mem _ hv))
    cases getImageMetadata fetch u.cid with
    | thrown msg => exact ih2
    | value m => rw [ih2]; rfl

theorem length_filterMap_all_some (f : α → Option β) (l : List α)
    (h : ∀ a ∈ l, (f a).isSome = true) :
    (l.filterMap f).length = l.length := by
  induction l with
  | nil => rfl
  | cons a rest ih =>
    rw [List.filterMap_cons]
    have ha := h a (List.mem_cons_self _ _)
    obtain ⟨b, hb⟩ := Option.isSome_iff_exists.mp ha
    rw [hb]
    simp [ih (fun v hv => h v (List.mem_cons_of_mem _ hv))]

theorem urlSuffix_slash (a b : String) :
    urlSuffix (a ++ "/") (a ++ ("/" ++ b)) = some b := by
  rw [← String.append_assoc]
  exact urlSuffix_append _ _

theorem keepUpload_name (o : Option String) (h : keepUpload o = true) :
    ∃ n, o = some n ∧ jsStartsWith n namePrefix = true := by
  cases o with
  | none => exact absurd h (by decide)
  | some n =>
    refine ⟨n, rfl, ?_⟩
    have h2 : ((!(n == "")) && jsStartsWith n namePrefix) = true := h
    exact (Bool.and_eq_true _ _ |>.mp h2).2

theorem jsGet_override (m : JsObj) (c g u : String) :
    jsGet (m ++ [("cid", c), ("gatewayURL", g), ("uri", u)]) "cid" = some c
    ∧ jsGet (m ++ [("cid", c), ("gatewayURL", g), ("uri", u)]) "gatewayURL" = some g
    ∧ jsGet (m ++ [("cid", c), ("gatewayURL", g), ("uri", u)]) "uri" = some u := by
  refine ⟨?_, ?_, ?_⟩ <;>
    simp +decide [jsGet, List.foldl_append, List.foldl_cons, List.foldl_nil]

/-! ### Witness fixtures -/

/-- A concrete backend for witnesses: the sidecar fetch fails with a 500
for the upload rooted at CID `bad` and succeeds for every other CID. -/
def exFetch : String → FetchOutcome := fun url =>
  if url = "https://bad.ipfs.dweb.link/metadata.json" then
    FetchOutcome.httpError 500 "Internal Server Error"
  else FetchOutcome.ok [("path", "p.png"), ("caption", "c")]

/-- A concrete upload listing mixing matching, non-matching and unnamed
uploads. -/
def exUploads : List Upload :=
  [⟨"good1", some "ImageGallery|a"⟩, ⟨"other", some "zzz"⟩,
   ⟨"anon", none⟩, ⟨"good2", some "ImageGallery|b"⟩]

/-- Matching uploads preceding the failing one. -/
def exPre : List Upload := [⟨"good1", some "ImageGallery|a"⟩]

/-- Matching uploads following the failing one. -/
def exPost : List Upload := [⟨"good2", some "ImageGallery|b"⟩]

/-- The single matching upload whose sidecar fetch fails under `exFetch`. -/
def exBad : Upload := ⟨"bad", some "ImageGallery|x"⟩

/-- A backend whose sidecar object itself carries `cid`, `gatewayURL` and
`uri` fields that conflict with the derived values. -/
def evilFetch : String → FetchOutcome := fun _ =>
  FetchOutcome.ok [("cid", "EVIL"), ("path", "cat.png"), ("caption", "hi"),
    ("gatewayURL", "https://evil.example/x"), ("uri", "evil://x")]

/-! ### Claim theorems -/

/-- Claim C1, counterexample: the claim asserts that `makeGatewayURL`
percent-encodes its path argument, but the `part_000`/`part_003` builder
(cited by the claim) interpolates the path verbatim: on `"a b.png"` it
produces a URL ending in `/a b.png`, not the claimed percent-encoded
form. -/
theorem claim1_counterexample :
    makeGatewayURL "bafy" "a b.png" = "https://bafy.ipfs.dweb.link/a b.png"
    ∧ (makeGatewayURL "bafy" "a b.png"
        == "https://" ++ "bafy" ++ ".ipfs.dweb.link/" ++ encodeURIComponent "a b.png") = false := by
  decide

/-- Claim C1, amended: the `part_004` gateway URL builder returns
`"https://" ++ cid ++ ".ipfs.dweb.link/" ++ encodeURIComponent path`, and
in particular percent-encodes `"a b.png"` to `a%20b.png`; the
`part_000`/`part_003` builder returns the path verbatim instead. -/
theorem claim1_gatewayURL_encoding (cid path : String) :
    makeGatewayURLEnc cid path
        = "https://" ++ cid ++ ".ipfs.dweb.link/" ++ encodeURIComponent path
    ∧ makeGatewayURLEnc cid "a b.png"
        = "https://" ++ cid ++ ".ipfs.dweb.link/" ++ "a%20b.png"
    ∧ makeGatewayURL cid path = "https://" ++ cid ++ ".ipfs.dweb.link/" ++ path := by
  refine ⟨rfl, ?_, rfl⟩
  show "https://" ++ cid ++ ".ipfs.dweb.link/" ++ encodeURIComponent "a b.png" = _
  rw [show encodeURIComponent "a b.png" = "a%20b.png" from by decide]

/-- Claim C2, counterexample: with no saved token, `getGalleryListing` of
`part_000` does not return an empty list — `storageClient()` is `null`
and the `web3storage.list()` call throws a `TypeError`. -/
theorem claim2_counterexample :
    getGalleryListing none (fun _ => FetchOutcome.httpError 404 "Not Found") []
        = JsResult.thrown "TypeError: Cannot read properties of null (reading list)"
    ∧ (getGalleryListing none (fun _ => FetchOutcome.httpError 404 "Not Found") []
        == JsResult.value []) = false := by
  decide

/-- Claim C2, amended: with no saved token `listImageMetadata`
(`part_003`/`part_004`) yields the empty sequence without failing, for
every backend state; `getGalleryListing` of `part_000`, however, throws a
`TypeError` instead. -/
theorem claim2_listing_empty_without_token (fetch : String → FetchOutcome)
    (uploads : List Upload) :
    listImageMetadata none fetch uploads = []
    ∧ getGalleryListing none fetch uploads
        = JsResult.thrown "TypeError: Cannot read properties of null (reading list)" :=
  ⟨rfl, rfl⟩

/-- Claim C3, counterexample: with no configured credential, `storeImage`
of `part_000` does not show an error message and return — it throws a
`TypeError` (while indeed making no `put` call). -/
theorem claim3_counterexample :
    (storeImage none (fun _ => "bafycid") ⟨"cat.png", "bytes"⟩ "hi").result
        = JsResult.thrown "TypeError: Cannot read properties of null (reading put)"
    ∧ ((storeImage none (fun _ => "bafycid") ⟨"cat.png", "bytes"⟩ "hi").result
        == JsResult.value none) = false
    ∧ (storeImage none (fun _ => "bafycid") ⟨"cat.png", "bytes"⟩ "hi").puts = [] := by
  decide

/-- Claim C3, amended: for every image file and caption, the
`part_003`/`part_004` variant of `storeImage` with no configured
credential makes no `put` call, returns `undefined` instead of throwing,
and shows the no-token message plus a settings-page link. -/
theorem claim3_store_no_token (loc : Location) (put : PutCall → String)
    (file : FileRep) (caption : String) :
    (storeImageChecked loc none put file caption).puts = []
    ∧ (storeImageChecked loc none put file caption).result = JsResult.value none
    ∧ (storeImageChecked loc none put file caption).messages
        = ["> ❗️ no API token found for Web3.Storage. You can add one in the settings page!",
           loc.protocol ++ "//" ++ loc.host ++ "/settings.html"] :=
  ⟨rfl, rfl, rfl⟩

/-- Claim C4: the listing result is unchanged if uploads failing the
name filter are removed first (so they contribute nothing), and every
item of the result comes from an upload whose declared name is present
and starts with `"ImageGallery"`. -/
theorem claim4_listing_prefix_filter (t : String) (fetch : String → FetchOutcome)
    (uploads : List Upload) :
    listImageMetadata (some t) fetch uploads
        = listImageMetadata (some t) fetch (uploads.filter (fun u => keepUpload u.name))
    ∧ getGalleryListing (some t) fetch uploads
        = JsResult.value (processUploads fetch (uploads.filter (fun u => keepUpload u.name)))
    ∧ ∀ m ∈ listImageMetadata (some t) fetch uploads,
        ∃ u ∈ uploads, keepUpload u.name = true
          ∧ (∃ n, u.name = some n ∧ jsStartsWith n namePrefix = true)
          ∧ getImageMetadata fetch u.cid = JsResult.value m := by
  refine ⟨processUploads_filter fetch uploads,
    congrArg JsResult.value (processUploads_filter fetch uploads), ?_⟩
  intro m hm
  obtain ⟨u, hu, hk, he⟩ := processUploads_mem fetch uploads m hm
  exact ⟨u, hu, hk, keepUpload_name u.name hk, he⟩

/-- Claim C4, witness: on a concrete four-upload listing (one unnamed,
one with a foreign name), the first gallery item is traced back to the
matching upload `good1`. -/
theorem claim4_witness :
    ∃ u ∈ exUploads, keepUpload u.name = true
      ∧ (∃ n, u.name = some n ∧ jsStartsWith n namePrefix = true)
      ∧ getImageMetadata exFetch u.cid = JsResult.value
          [("path", "p.png"), ("caption", "c"), ("cid", "good1"),
           ("gatewayURL", "https://good1.ipfs.dweb.link/p.png"), ("uri", "ipfs://good1/p.png")] :=
  (claim4_listing_prefix_filter "token" exFetch exUploads).2.2 _ (by decide)

/-- Claim C5: if every upload in `pre ++ bad :: post` passes the name
filter, every sidecar fetch in `pre` and `post` succeeds and the one for
`bad` fails, then the listing yields exactly the items of `pre ++ post`
in backend order — the single bad item is skipped and the listing does
not fail, producing `N - 1` items. -/
theorem claim5_partial_failure_isolation (t : String) (fetch : String → FetchOutcome)
    (pre post : List Upload) (bad : Upload)
    (hkeep : ∀ u ∈ pre ++ bad :: post, keepUpload u.name = true)
    (hok : ∀ u ∈ pre ++ post, ((getImageMetadata fetch u.cid).toOption).isSome = true)
    (hbad : (getImageMetadata fetch bad.cid).toOption = none) :
    listImageMetadata (some t) fetch (pre ++ bad :: post)
        = (pre ++ post).filterMap (fun u => (getImageMetadata fetch u.cid).toOption)
    ∧ (listImageMetadata (some t) fetch (pre ++ bad :: post)).length
        = pre.length + post.length := by
  have h1 : listImageMetadata (some t) fetch (pre ++ bad :: post)
      = processUploads fetch (pre ++ bad :: post) := rfl
  rw [h1, processUploads_eq_filterMap fetch _ hkeep]
  constructor
  · simp [List.filterMap_append, List.filterMap_cons, hbad]
  · rw [List.filterMap_append, List.filterMap_cons, hbad, List.length_append]
    rw [length_filterMap_all_some _ _ (fun v hv => hok v (List.mem_append_left _ hv)),
      length_filterMap_all_some _ _ (fun v hv => hok v (List.mem_append_right _ hv))]

/-- Claim C5, witness: with the concrete backend `exFetch`, a listing of
three matching uploads whose middle sidecar fetch fails yields exactly
two items. -/
theorem claim5_witness :
    (listImageMetadata (some "token") exFetch (exPre ++ exBad :: exPost)).length = 2 := by
  have h := claim5_partial_failure_isolation "token" exFetch exPre exPost exBad
    (by decide) (by decide) (by decide)
  rw [h.2]
  decide

/-- Claim C6: with a configured credential, `storeImage` (`part_000`)
returns the CID computed by the backend `put` call together with the
four derived links, and the path component of each link is either the
image's filename or `metadata.json`. -/
theorem claim6_store_links (t : String) (put : PutCall → String)
    (file : FileRep) (caption : String) :
    ∃ r : StoreImageResult,
      (storeImage (some t) put file caption).result = JsResult.value (some r)
      ∧ r.cid = put ⟨[file, jsonFile "metadata.json" file.name caption], uploadName caption⟩
      ∧ urlSuffix ("https://" ++ r.cid ++ ".ipfs.dweb.link/") r.imageGatewayURL = some file.name
      ∧ urlSuffix ("https://" ++ r.cid ++ ".ipfs.dweb.link/") r.metadataGatewayURL
          = some "metadata.json"
      ∧ urlSuffix ("ipfs://" ++ r.cid ++ "/") r.imageURI = some file.name
      ∧ urlSuffix ("ipfs://" ++ r.cid ++ "/") r.metadataURI = some "metadata.json" := by
  refine ⟨_, rfl, rfl, urlSuffix_append _ _, urlSuffix_append _ _, urlSuffix_append _ _, ?_⟩
  exact urlSuffix_slash
    ("ipfs://" ++ put ⟨[file, jsonFile "metadata.json" file.name caption], uploadName caption⟩)
    "metadata.json"

/-- Claim C7: the upload name composed by `storeImage` is the fixed
marker, a `|`, then the caption; for `cat.png` with caption `"hi"` the
name is `ImageGallery|hi` and the sidecar content is exactly
`{"path":"cat.png","caption":"hi"}`. -/
theorem claim7_uploadName_sidecar (t : String) (put : PutCall → String)
    (file : FileRep) (caption : String) :
    (storeImage (some t) put file caption).puts
        = [⟨[file, jsonFile "metadata.json" file.name caption], uploadName caption⟩]
    ∧ uploadName caption = namePrefix ++ "|" ++ caption
    ∧ uploadName "hi" = "ImageGallery|hi"
    ∧ (jsonFile "metadata.json" "cat.png" "hi").content
        = "\x7b\"path\":\"cat.png\",\"caption\":\"hi\"\x7d" :=
  ⟨rfl, rfl, rfl, by decide⟩

/-- Claim C8: decoding (`JSON.parse`) the sidecar produced by the codec
(`JSON.stringify` via `jsonFile`) recovers exactly the `path` and
`caption` that were encoded, for all strings. -/
theorem claim8_sidecar_roundtrip (path caption : String) :
    parseSidecar (jsonFile "metadata.json" path caption).content = some (path, caption) :=
  parseSidecar_stringify path caption

/-- Claim C9: whenever the sidecar fetch succeeds with object `m`, the
record returned by `getImageMetadata` has `cid` equal to the `cid`
argument and `gatewayURL` / `uri` derived from that `cid` and `m.path` —
even when `m` itself carries `cid`, `gatewayURL` or `uri` fields, since
the derived fields are written after the spread of `m`. -/
theorem claim9_metadata_override (fetch : String → FetchOutcome) (cid : String)
    (m : JsObj) (hm : fetch (makeGatewayURL cid "metadata.json") = FetchOutcome.ok m) :
    ∃ obj, getImageMetadata fetch cid = JsResult.value obj
      ∧ jsGet obj "cid" = some cid
      ∧ jsGet obj "gatewayURL"
          = some (makeGatewayURL cid ((jsGet m "path").getD "undefined"))
      ∧ jsGet obj "uri"
          = some ("ipfs://" ++ cid ++ "/" ++ (jsGet m "path").getD "undefined") := by
  have hobj : getImageMetadata fetch cid = JsResult.value (m ++ [("cid", cid),
      ("gatewayURL", makeGatewayURL cid ((jsGet m "path").getD "undefined")),
      ("uri", "ipfs://" ++ cid ++ "/" ++ (jsGet m "path").getD "undefined")]) := by
    rw [getImageMetadata.eq_def, hm]
  exact ⟨_, hobj, (jsGet_override m cid _ _).1, (jsGet_override m cid _ _).2.1,
    (jsGet_override m cid _ _).2.2⟩

/-- Claim C9, witness: a sidecar that itself claims `cid = "EVIL"` and a
foreign `gatewayURL` cannot override the derived fields. -/
theorem claim9_witness :
    jsGet ((getImageMetadata evilFetch "bafy").toOption.getD []) "cid" = some "bafy"
    ∧ jsGet ((getImageMetadata evilFetch "bafy").toOption.getD []) "gatewayURL"
        = some "https://bafy.ipfs.dweb.link/cat.png" := by
  obtain ⟨obj, h1, h2, h3, h4⟩ := claim9_metadata_override evilFetch "bafy" _ rfl
  rw [h1]
  simp only [JsResult.toOption, Option.getD_some]
  refine ⟨h2, ?_⟩
  rw [h3]
  decide

/-- Claim C10: for every caption, the empty string included, the upload
name written by `storeImage` passes the listing filter — it is non-empty
and starts with the fixed marker, so a freshly stored upload is never
skipped by the name check. -/
theorem claim10_stored_uploads_listed (caption : String) :
    keepUpload (some (uploadName caption)) = true
    ∧ keepUpload (some (uploadName "")) = true := by
  refine ⟨?_, by decide⟩
  have h1 : uploadName caption = namePrefix ++ ("|" ++ caption) := by
    rw [← String.append_assoc]
    rfl
  show ((!(uploadName caption == "")) && jsStartsWith (uploadName caption) namePrefix) = true
  rw [h1, Bool.and_eq_true]
  refine ⟨?_, jsStartsWith_append _ _⟩
  simp only [Bool.not_eq_true', beq_eq_false_iff_ne]
  exact append_ne_empty ("|" ++ caption)

end ImageGallery
